import Mathlib

/-!
Verification of the uszipcode core model (`uszipcode/model.py`):
the compressed-JSON column codec, the zipcode record entity with its
identity-based equality / ordering / hashing, the derived state
attributes, and the great-circle distance primitive together with the
bounding-box pre-filter of the coordinate search.

Conventions of the embedding:
* Nullable database columns become `Option` fields.
* Python code that can raise becomes `Except String` valued; the error
  payload stands for the exception message.
* `sa.Float` columns and geometric arithmetic are modelled over `ℝ`.
* External collaborators (the `zlib` compressor, the UTF-8 string codec,
  the pluggable JSON library, the static state-abbreviation table, and
  the `haversine` package) are parameters, constrained only by the
  contracts the spec states for them, or are modelled from the spec
  where so noted.
-/

open Real

/-! ## Compressed JSON codec (`CompressedJSONType`) -/

/-- Embedding of `CompressedJSONType.process_bind_param`:

    if value is None: return value
    return zlib.compress(self.json_lib.dumps(value).encode("utf-8"))

`V` is the type of JSON-serializable values, `B` the type of byte
strings.  `dumps` is the pluggable serializer (`json_lib.dumps`),
`utf8Encode` is `str.encode("utf-8")` and `compress` is
`zlib.compress`; all three are external collaborators. -/
def process_bind_param {V B : Type} (dumps : V → String)
    (utf8Encode : String → B) (compress : B → B)
    (value : Option V) : Option B :=
  match value with
  | none => none
  | some v => some (compress (utf8Encode (dumps v)))

/-- Embedding of `CompressedJSONType.process_result_value`:

    if value is None: return None
    return self.json_lib.loads(zlib.decompress(value).decode("utf-8"))

`loads` is `json_lib.loads`, `utf8Decode` is `bytes.decode("utf-8")`
and `decompress` is `zlib.decompress`. -/
def process_result_value {V B : Type} (loads : String → V)
    (utf8Decode : B → String) (decompress : B → B)
    (value : Option B) : Option V :=
  match value with
  | none => none
  | some b => some (loads (utf8Decode (decompress b)))

/-! ## Zipcode record (`AbstractSimpleZipcode`) -/

/-- Embedding of the `AbstractSimpleZipcode` declarative model: one
field per column, nullable columns as `Option`, `sa.Float` as `ℝ`,
`sa.Integer` as `Int`, compressed JSON list columns as decoded lists.
All fields default to `none`, mirroring unset column values. -/
structure AbstractSimpleZipcode where
  zipcode : Option String := none
  zipcode_type : Option String := none
  major_city : Option String := none
  post_office_city : Option String := none
  common_city_list : Option (List String) := none
  county : Option String := none
  state : Option String := none
  lat : Option ℝ := none
  lng : Option ℝ := none
  timezone : Option String := none
  radius_in_miles : Option ℝ := none
  area_code_list : Option (List String) := none
  population : Option Int := none
  population_density : Option ℝ := none
  land_area_in_sqmi : Option ℝ := none
  water_area_in_sqmi : Option ℝ := none
  housing_units : Option Int := none
  occupied_housing_units : Option Int := none
  median_home_value : Option Int := none
  median_household_income : Option Int := none
  bounds_west : Option ℝ := none
  bounds_east : Option ℝ := none
  bounds_north : Option ℝ := none
  bounds_south : Option ℝ := none

/-- Embedding of the `city` property: alias of `major_city`. -/
def AbstractSimpleZipcode.city (z : AbstractSimpleZipcode) : Option String :=
  z.major_city

/-- The exception message raised by `self.state.upper()` when `state`
is unset: in Python, attribute access on `None` raises
`AttributeError` before any comparison or lookup happens. -/
def noneUpperMsg : String :=
  "AttributeError: NoneType object has no attribute upper"

/-- Embedding of the `state_abbr` property, `self.state.upper()`.
When `state` is `None` the attribute access raises (modelled as
`Except.error`); otherwise it returns the uppercased code. -/
def AbstractSimpleZipcode.state_abbr (z : AbstractSimpleZipcode) :
    Except String String :=
  match z.state with
  | none => .error noneUpperMsg
  | some s => .ok s.toUpper

/-- Embedding of the `state_long` property,
`MAPPER_STATE_ABBR_SHORT_TO_LONG.get(self.state.upper())`.  The static
short-to-long table is an external collaborator, passed as `mapper`;
`dict.get` returns `None` (here `Option.none`) for absent keys, so the
success type is `Option String`. -/
def AbstractSimpleZipcode.state_long (mapper : String → Option String)
    (z : AbstractSimpleZipcode) : Except String (Option String) :=
  match z.state with
  | none => .error noneUpperMsg
  | some s => .ok (mapper s.toUpper)

/-- Embedding of `__bool__`: `self.zipcode is not None`. -/
def AbstractSimpleZipcode.bool_ (z : AbstractSimpleZipcode) : Bool :=
  z.zipcode.isSome

/-- The `ValueError` message of `__lt__` on an empty record (the
source literal contains an apostrophe, elided here). -/
def emptyCmpMsg : String :=
  "Empty Zipcode instance does not support comparison."

/-- Embedding of `__lt__`:

    if (self.zipcode is None) or (other.zipcode is None):
        raise ValueError(...)
    else:
        return self.zipcode < other.zipcode

String comparison is lexicographic by code point in both Python and
Lean. -/
def AbstractSimpleZipcode.lt_ (a b : AbstractSimpleZipcode) :
    Except String Bool :=
  match a.zipcode, b.zipcode with
  | some x, some y => .ok (decide (x < y))
  | _, _ => .error emptyCmpMsg

/-- Embedding of `__eq__`: `return self.zipcode == other.zipcode`.
No code path raises: `None == None` is `True` in Python, matching
`Option` equality. -/
def AbstractSimpleZipcode.eq_ (a b : AbstractSimpleZipcode) : Bool :=
  a.zipcode == b.zipcode

/-- Embedding of `__hash__`: `return hash(self.zipcode)` (defined also
for an unset zipcode, as `hash(None)` is). -/
def AbstractSimpleZipcode.hash_ (z : AbstractSimpleZipcode) : UInt64 :=
  hash z.zipcode

/-- Embedding of the `__gt__` derived by `@total_ordering` from
`__lt__` and `__eq__`: `not (self < other) and self != other`, where
the `__lt__` call propagates its `ValueError`. -/
def AbstractSimpleZipcode.gt_ (a b : AbstractSimpleZipcode) :
    Except String Bool := do
  let l ← a.lt_ b
  pure (!l && !(a.eq_ b))

/-- Embedding of the `__le__` derived by `@total_ordering`:
`self < other or self == other`, propagating `ValueError` from
`__lt__`. -/
def AbstractSimpleZipcode.le_ (a b : AbstractSimpleZipcode) :
    Except String Bool := do
  let l ← a.lt_ b
  pure (l || a.eq_ b)

/-- Embedding of the `__ge__` derived by `@total_ordering`:
`not (self < other)`, propagating `ValueError` from `__lt__`. -/
def AbstractSimpleZipcode.ge_ (a b : AbstractSimpleZipcode) :
    Except String Bool := do
  let l ← a.lt_ b
  pure (!l)

/-! Concrete records used as witnesses and counterexamples. -/

/-- A record with an unset zipcode but another field populated. -/
def emptyZipcodeA : AbstractSimpleZipcode :=
  { major_city := some "Chicago" }

/-- A fully unset record. -/
def emptyZipcodeB : AbstractSimpleZipcode := {}

/-- A record for zipcode 10001 with one extra field populated. -/
def recordNY : AbstractSimpleZipcode :=
  { zipcode := some "10001", major_city := some "New York" }

/-- A record with the same zipcode as `recordNY` but different other
fields. -/
def recordNYVariant : AbstractSimpleZipcode :=
  { zipcode := some "10001", major_city := some "NYC",
    state := some "NY", population := some 21102 }

/-- A record for zipcode 90210. -/
def recordCA : AbstractSimpleZipcode :=
  { zipcode := some "90210", state := some "ca" }

/-- An example static short-to-long state table restricted to one
entry, standing in for `MAPPER_STATE_ABBR_SHORT_TO_LONG`. -/
def exampleMapper : String → Option String :=
  fun a => if a == "NY" then some "New York" else none

/-! ## Theorems: codec -/

/-- Claim C1: for every JSON-serializable value (including `none`),
decoding the encoded form returns the original value, given that the
compressor is lossless (`decompress` after `compress` is the
identity), the UTF-8 codec round-trips, and the pluggable serializer
satisfies `loads(dumps(v)) == v`. -/
theorem compressedJSON_roundtrip {V B : Type}
    (dumps : V → String) (loads : String → V)
    (utf8Encode : String → B) (utf8Decode : B → String)
    (compress : B → B) (decompress : B → B)
    (hzlib : ∀ b, decompress (compress b) = b)
    (hutf8 : ∀ s, utf8Decode (utf8Encode s) = s)
    (hjson : ∀ v, loads (dumps v) = v)
    (value : Option V) :
    process_result_value loads utf8Decode decompress
      (process_bind_param dumps utf8Encode compress value) = value := by
  cases value with
  | none => rfl
  | some v =>
    simp [process_bind_param, process_result_value, hzlib, hutf8, hjson]

/-- Witness for C1: a concrete instantiation (identity serializer,
identity compressor over `String` bytes) round-trips a concrete
value. -/
theorem compressedJSON_roundtrip_witness :
    (∀ b : String, id (id b) = b) ∧
    process_result_value (B := String) id id id
      (process_bind_param id id id (some "10001")) = some "10001" :=
  ⟨fun _ => rfl,
    compressedJSON_roundtrip id id id id id id
      (fun _ => rfl) (fun _ => rfl) (fun _ => rfl) (some "10001")⟩

/-- Claim C6: encoding `None` returns `None` unchanged (never passed
to the compressor) and decoding `None` returns `None`, for every
serializer, UTF-8 codec and compressor. -/
theorem compressedJSON_none_passthrough {V B : Type}
    (dumps : V → String) (loads : String → V)
    (utf8Encode : String → B) (utf8Decode : B → String)
    (compress : B → B) (decompress : B → B) :
    process_bind_param dumps utf8Encode compress (none : Option V) = none ∧
    process_result_value loads utf8Decode decompress (none : Option B) =
      none :=
  ⟨rfl, rfl⟩

/-! ## Theorems: record identity -/

/-- Claim C2: `r1 == r2` holds exactly when the zipcodes are equal,
and equal zipcodes force equal hashes, regardless of every other
field. -/
theorem zipcode_eq_iff_and_hash (r1 r2 : AbstractSimpleZipcode) :
    (r1.eq_ r2 = true ↔ r1.zipcode = r2.zipcode) ∧
    (r1.zipcode = r2.zipcode → r1.hash_ = r2.hash_) := by
  constructor
  · simp [AbstractSimpleZipcode.eq_]
  · intro h
    simp [AbstractSimpleZipcode.hash_, h]

/-- Witness for C2: two concrete records sharing zipcode `10001` but
differing in `major_city`, `state` and `population` are equal and
hash identically. -/
theorem zipcode_eq_iff_and_hash_witness :
    recordNY.zipcode = recordNYVariant.zipcode ∧
    recordNY.eq_ recordNYVariant = true ∧
    recordNY.hash_ = recordNYVariant.hash_ :=
  ⟨rfl, (zipcode_eq_iff_and_hash recordNY recordNYVariant).1.mpr rfl,
    (zipcode_eq_iff_and_hash recordNY recordNYVariant).2 rfl⟩

/-- Claim C7: for records whose zipcodes are both set, `r1 < r2` holds
exactly when `r1.zipcode` is lexicographically smaller as a string. -/
theorem zipcode_lt_lexicographic (r1 r2 : AbstractSimpleZipcode)
    (x y : String) (h1 : r1.zipcode = some x) (h2 : r2.zipcode = some y) :
    r1.lt_ r2 = .ok true ↔ x < y := by
  simp [AbstractSimpleZipcode.lt_, h1, h2]

/-- Witness for C7: `10001 < 90210` lexicographically, and the
comparison on the corresponding records returns `ok true`. -/
theorem zipcode_lt_lexicographic_witness :
    recordNY.zipcode = some "10001" ∧ recordCA.zipcode = some "90210" ∧
    recordNY.lt_ recordCA = .ok true :=
  ⟨rfl, rfl,
    (zipcode_lt_lexicographic recordNY recordCA "10001" "90210" rfl rfl).mpr
      (by rw [String.lt_iff_toList_lt]; decide)⟩

/-- Counterexample to Claim C3 as stated: at the concrete pair of
records `emptyZipcodeA`, `emptyZipcodeB`, both with `zipcode` unset,
the comparison operation `==` resolves to the boolean `true` rather
than failing — `__eq__` has no raising path, so not every comparison
operation fails on empty records. -/
theorem empty_eq_resolves_counterexample :
    emptyZipcodeA.eq_ emptyZipcodeB = true := by decide

/-- Claim C3 (amended): for every pair of records where at least one
zipcode is unset, every ordering comparison (`<`, `<=`, `>`, `>=`,
including the three derived by `@total_ordering`) fails with the
designated `ValueError`; equality is the exception and resolves to a
boolean. -/
theorem empty_ordering_comparisons_error (r1 r2 : AbstractSimpleZipcode)
    (h : r1.zipcode = none ∨ r2.zipcode = none) :
    r1.lt_ r2 = .error emptyCmpMsg ∧ r1.le_ r2 = .error emptyCmpMsg ∧
    r1.gt_ r2 = .error emptyCmpMsg ∧ r1.ge_ r2 = .error emptyCmpMsg := by
  have hlt : r1.lt_ r2 = .error emptyCmpMsg := by
    unfold AbstractSimpleZipcode.lt_
    rcases hx : r1.zipcode with _ | x <;> rcases hy : r2.zipcode with _ | y <;>
      simp_all
  refine ⟨hlt, ?_, ?_, ?_⟩ <;>
    simp [AbstractSimpleZipcode.le_, AbstractSimpleZipcode.gt_,
      AbstractSimpleZipcode.ge_, hlt]

/-- Witness for C3 (amended): at the concrete empty records, all four
ordering comparisons return the `ValueError`. -/
theorem empty_ordering_comparisons_error_witness :
    emptyZipcodeA.zipcode = none ∧
    emptyZipcodeA.lt_ emptyZipcodeB = .error emptyCmpMsg ∧
    emptyZipcodeA.le_ emptyZipcodeB = .error emptyCmpMsg ∧
    emptyZipcodeA.gt_ emptyZipcodeB = .error emptyCmpMsg ∧
    emptyZipcodeA.ge_ emptyZipcodeB = .error emptyCmpMsg :=
  ⟨rfl,
    (empty_ordering_comparisons_error emptyZipcodeA emptyZipcodeB
      (Or.inl rfl)).1,
    (empty_ordering_comparisons_error emptyZipcodeA emptyZipcodeB
      (Or.inl rfl)).2.1,
    (empty_ordering_comparisons_error emptyZipcodeA emptyZipcodeB
      (Or.inl rfl)).2.2.1,
    (empty_ordering_comparisons_error emptyZipcodeA emptyZipcodeB
      (Or.inl rfl)).2.2.2⟩

/-- Claim C9: equality never raises — two records with both zipcodes
unset compare equal (`true`), equality always resolves to a boolean,
and the ordering comparison is the only operation that rejects empty
records: `__lt__` fails exactly when one of the zipcodes is unset. -/
theorem zipcode_eq_total_on_empty (r1 r2 : AbstractSimpleZipcode) :
    (r1.zipcode = none → r2.zipcode = none → r1.eq_ r2 = true) ∧
    (r1.eq_ r2 = true ∨ r1.eq_ r2 = false) ∧
    ((∃ e, r1.lt_ r2 = .error e) ↔
      (r1.zipcode = none ∨ r2.zipcode = none)) := by
  refine ⟨fun h1 h2 => ?_, by cases r1.eq_ r2 <;> simp, ?_⟩
  · simp [AbstractSimpleZipcode.eq_, h1, h2]
  · unfold AbstractSimpleZipcode.lt_
    rcases hx : r1.zipcode with _ | x <;> rcases hy : r2.zipcode with _ | y <;>
      simp

/-- Witness for C9: concrete empty records compare equal, and a pair
of set records is not rejected by `__lt__`. -/
theorem zipcode_eq_total_on_empty_witness :
    emptyZipcodeA.eq_ emptyZipcodeB = true ∧
    (emptyZipcodeA.zipcode = none ∨ emptyZipcodeB.zipcode = none) :=
  ⟨(zipcode_eq_total_on_empty emptyZipcodeA emptyZipcodeB).1 rfl rfl,
    Or.inl rfl⟩

/-! ## Theorems: derived state attributes -/

/-- Claim C8: for a record whose `state` is set, `state_abbr` is the
uppercase of `state`, `state_long` is the static-table lookup of that
abbreviation, and an absent table entry yields `none` (no value), not
an error. -/
theorem state_abbr_long_spec (z : AbstractSimpleZipcode)
    (mapper : String → Option String) (s : String) (h : z.state = some s) :
    z.state_abbr = .ok s.toUpper ∧
    z.state_long mapper = .ok (mapper s.toUpper) ∧
    (mapper s.toUpper = none → z.state_long mapper = .ok none) := by
  refine ⟨?_, ?_, fun habs => ?_⟩ <;>
    simp [AbstractSimpleZipcode.state_abbr, AbstractSimpleZipcode.state_long,
      h, *]

/-- Witness for C8: a concrete record with `state = "ca"` — the
abbreviation is the uppercased code, and `"CA"` being absent from the
one-entry example table yields `ok none` rather than an error. -/
theorem state_abbr_long_spec_witness :
    recordCA.state = some "ca" ∧
    recordCA.state_abbr = .ok ("ca".toUpper) ∧
    recordCA.state_long exampleMapper = .ok (exampleMapper ("ca".toUpper)) :=
  ⟨rfl, (state_abbr_long_spec recordCA exampleMapper "ca" rfl).1,
    (state_abbr_long_spec recordCA exampleMapper "ca" rfl).2.1⟩

/-- Claim C10: on a record whose `state` is unset, both `state_abbr`
and `state_long` raise (the unconditional `self.state.upper()`
attribute access fails on `None`) instead of yielding no value. -/
theorem state_attrs_error_on_none (z : AbstractSimpleZipcode)
    (mapper : String → Option String) (h : z.state = none) :
    z.state_abbr = .error noneUpperMsg ∧
    z.state_long mapper = .error noneUpperMsg := by
  constructor <;>
    simp [AbstractSimpleZipcode.state_abbr, AbstractSimpleZipcode.state_long,
      h]

/-- Witness for C10: the fully unset record raises on both derived
state attributes. -/
theorem state_attrs_error_on_none_witness :
    emptyZipcodeB.state = none ∧
    emptyZipcodeB.state_abbr = .error noneUpperMsg ∧
    emptyZipcodeB.state_long exampleMapper = .error noneUpperMsg :=
  ⟨rfl, (state_attrs_error_on_none emptyZipcodeB exampleMapper rfl).1,
    (state_attrs_error_on_none emptyZipcodeB exampleMapper rfl).2⟩

/-! ## Great-circle distance and the coordinate-search pre-filter

The geometry is modelled over `ℝ` with coordinates in radians (the
degree-to-radian conversion of the source is a fixed linear rescaling
that affects none of the properties below).  Valid coordinates satisfy
`|lat| <= pi/2` and `|lng| <= pi`, the radian image of the validation
ranges the spec imposes before any search runs. -/

/-- Modelled from the spec: the external `haversine` package called by
`dist_from`, per the formula stated in the spec —
`a = sin^2(dlat/2) + cos(lat1) * cos(lat2) * sin^2(dlng/2)` and
`d = 2 * R * asin(sqrt a)`, with `R` the mean Earth radius in the
requested unit (miles or kilometers). -/
noncomputable def haversine (R lat1 lng1 lat2 lng2 : ℝ) : ℝ :=
  2 * R * arcsin (Real.sqrt (sin ((lat2 - lat1) / 2) ^ 2 +
    cos lat1 * cos lat2 * sin ((lng2 - lng1) / 2) ^ 2))

/-- Embedding of `AbstractSimpleZipcode.dist_from`:
`haversine((self.lat, self.lng), (lat, lng), unit=unit)`.  The unit
argument selects the Earth radius `R`; a record with unset
coordinates has no distance (in Python the library call would fail on
`None`). -/
noncomputable def AbstractSimpleZipcode.dist_from
    (z : AbstractSimpleZipcode) (lat lng R : ℝ) : Option ℝ :=
  match z.lat, z.lng with
  | some zlat, some zlng => some (haversine R zlat zlng lat lng)
  | _, _ => none

/-- A record populated only with coordinates, for stating geometric
properties. -/
def mkGeoZipcode (lat lng : ℝ) : AbstractSimpleZipcode :=
  { lat := some lat, lng := some lng }

/-- Modelled from the spec: the latitude half-width of the
bounding-box pre-filter of `by_coordinates` step 1 (the search engine
source is not part of the visible core).  One radian of latitude is
`R` distance units everywhere, so the radius-derived latitude delta is
`radius / R`. -/
noncomputable def latDelta (R radius : ℝ) : ℝ := radius / R

/-- Modelled from the spec: the longitude half-width of the
bounding-box pre-filter of `by_coordinates` step 1.  Following the
spec, the radius-derived longitude delta is divided by the cosine of a
latitude, clamped away from the poles: the cosine is taken at the
worst-case latitude reachable within the box
(`|qlat| + radius / R`), and when that band touches a pole the box
opens to the full longitude range, the standard conservative choice
the spec asks implementers to validate via the soundness property. -/
noncomputable def lngDelta (R radius qlat : ℝ) : ℝ :=
  if |qlat| + radius / R < π / 2 then
    2 * arcsin (min 1 (sin (radius / (2 * R)) / cos (|qlat| + radius / R)))
  else 2 * π

/-- Modelled from the spec: longitude separation as scanned by the
pre-filter, taking the shorter way around the antimeridian. -/
noncomputable def lngWrapDist (x y : ℝ) : ℝ :=
  min |x - y| (2 * π - |x - y|)

/-- Modelled from the spec: membership of a record position
`(plat, plng)` in the bounding-box candidate set of a
`by_coordinates(qlat, qlng, radius)` query. -/
def inBoundingBox (R radius qlat qlng plat plng : ℝ) : Prop :=
  |plat - qlat| ≤ latDelta R radius ∧
  lngWrapDist plng qlng ≤ lngDelta R radius qlat

/-! Helper lemmas about the haversine formula. -/

/-- Half-angle form of the sine square. -/
theorem sin_sq_half_eq (x : ℝ) : sin (x / 2) ^ 2 = (1 - cos x) / 2 := by
  have h1 := sin_sq_add_cos_sq (x / 2)
  have h2 := cos_two_mul (x / 2)
  rw [show (2:ℝ) * (x / 2) = x by ring] at h2
  linarith

/-- The haversine radicand never exceeds 1 when both latitudes lie in
the valid band. -/
theorem hav_radicand_le_one (lat1 lat2 u : ℝ)
    (h1 : 0 ≤ cos lat1) (h2 : 0 ≤ cos lat2) :
    sin ((lat2 - lat1) / 2) ^ 2 + cos lat1 * cos lat2 * sin u ^ 2 ≤ 1 := by
  have hs : sin u ^ 2 ≤ 1 := sin_sq_le_one u
  have h3 : cos lat1 * cos lat2 * sin u ^ 2 ≤ cos lat1 * cos lat2 := by
    nlinarith [mul_nonneg (mul_nonneg h1 h2) (sub_nonneg.mpr hs)]
  have h4 := sin_sq_half_eq (lat2 - lat1)
  have h5 := cos_sub lat2 lat1
  have h6 := cos_le_one (lat2 + lat1)
  have h7 := cos_add lat2 lat1
  linarith

/-- For arguments within a half-turn of zero, the absolute sine is the
sine of the absolute value. -/
theorem abs_sin_eq_sin_abs (x : ℝ) (hx : |x| ≤ π) : |sin x| = sin |x| := by
  rcases abs_cases x with ⟨h1, h2⟩ | ⟨h1, h2⟩
  · rw [h1] at hx ⊢
    exact abs_of_nonneg (sin_nonneg_of_nonneg_of_le_pi h2 hx)
  · rw [h1] at hx ⊢
    calc |sin x| = |sin (-x)| := by rw [sin_neg, abs_neg]
    _ = sin (-x) :=
      abs_of_nonneg (sin_nonneg_of_nonneg_of_le_pi (by linarith) hx)

/-- Latitude soundness core: a haversine distance bound confines the
latitude difference to `radius / R`. -/
theorem lat_bound_of_hav (R radius lat1 lng1 lat2 lng2 : ℝ) (hR : 0 < R)
    (h1 : |lat1| ≤ π / 2) (h2 : |lat2| ≤ π / 2)
    (hle : haversine R lat1 lng1 lat2 lng2 ≤ radius) :
    |lat2 - lat1| ≤ radius / R := by
  obtain ⟨h1a, h1b⟩ := abs_le.mp h1
  obtain ⟨h2a, h2b⟩ := abs_le.mp h2
  set A := sin ((lat2 - lat1) / 2) ^ 2 +
    cos lat1 * cos lat2 * sin ((lng2 - lng1) / 2) ^ 2 with hA
  have hcos1 : 0 ≤ cos lat1 := cos_nonneg_of_mem_Icc ⟨h1a, h1b⟩
  have hcos2 : 0 ≤ cos lat2 := cos_nonneg_of_mem_Icc ⟨h2a, h2b⟩
  have hA0 : 0 ≤ A := by
    have := mul_nonneg (mul_nonneg hcos1 hcos2)
      (sq_nonneg (sin ((lng2 - lng1) / 2)))
    have := sq_nonneg (sin ((lat2 - lat1) / 2))
    rw [hA]; linarith
  have harc : arcsin (Real.sqrt A) ≤ radius / (2 * R) := by
    rw [le_div_iff₀ (by positivity : (0:ℝ) < 2 * R)]
    have : 2 * R * arcsin (Real.sqrt A) ≤ radius := hle
    linarith [this]
  have habs_t : |(lat2 - lat1) / 2| ≤ π / 2 := by
    rw [abs_div, abs_two]
    have := abs_sub lat2 lat1
    have := abs_le.mpr ⟨h1a, h1b⟩
    linarith [abs_le.mpr (And.intro h2a h2b)]
  have hsin_le : |sin ((lat2 - lat1) / 2)| ≤ Real.sqrt A := by
    have hstep : sin ((lat2 - lat1) / 2) ^ 2 ≤ A := by
      have := mul_nonneg (mul_nonneg hcos1 hcos2)
        (sq_nonneg (sin ((lng2 - lng1) / 2)))
      rw [hA]; linarith
    have := Real.sqrt_le_sqrt hstep
    rwa [Real.sqrt_sq_eq_abs] at this
  have hkey : |(lat2 - lat1) / 2| ≤ radius / (2 * R) := by
    have hmono := monotone_arcsin hsin_le
    have heq : arcsin |sin ((lat2 - lat1) / 2)| = |(lat2 - lat1) / 2| := by
      rw [abs_sin_eq_sin_abs _ (le_trans habs_t (by linarith [pi_pos]))]
      exact arcsin_sin (le_trans (by linarith [pi_pos]) (abs_nonneg _))
        habs_t
    linarith [heq ▸ hmono]
  rw [abs_div, abs_two] at hkey
  have : radius / (2 * R) = radius / R / 2 := by ring
  linarith [hkey, this ▸ hkey]

/-- Claim C5: the great-circle distance computed by `dist_from` is
symmetric — swapping the roles of the record position and the query
point leaves the distance unchanged — and the distance from a point to
itself is exactly 0 (over the reals, so within any floating-point
tolerance). -/
theorem dist_from_symm_and_self_zero (a b c d R : ℝ) :
    (mkGeoZipcode a b).dist_from c d R =
      (mkGeoZipcode c d).dist_from a b R ∧
    (mkGeoZipcode a b).dist_from a b R = some 0 := by
  constructor
  · show some (haversine R a b c d) = some (haversine R c d a b)
    have h1 : sin ((a - c) / 2) = -sin ((c - a) / 2) := by
      rw [show (a - c) / 2 = -((c - a) / 2) by ring, sin_neg]
    have h2 : sin ((b - d) / 2) = -sin ((d - b) / 2) := by
      rw [show (b - d) / 2 = -((d - b) / 2) by ring, sin_neg]
    have key : sin ((a - c) / 2) ^ 2 + cos c * cos a * sin ((b - d) / 2) ^ 2
        = sin ((c - a) / 2) ^ 2 + cos a * cos c * sin ((d - b) / 2) ^ 2 := by
      rw [h1, h2]; ring
    simp only [haversine, key]
  · show some (haversine R a b a b) = some 0
    simp [haversine]

/-- Claim C4: soundness of the bounding-box pre-filter of
`by_coordinates` step 1 — every record whose great-circle distance
from the query point is at most `radius` lies inside the candidate
box, for every query point with physically valid coordinates and
every positive radius.  The box may admit farther rows, but this shows
it never excludes a row genuinely within `radius`. -/
theorem by_coordinates_prefilter_sound
    (z : AbstractSimpleZipcode) (R radius qlat qlng plat plng d : ℝ)
    (hzlat : z.lat = some plat) (hzlng : z.lng = some plng)
    (hR : 0 < R) (hrad : 0 < radius)
    (hqlat : |qlat| ≤ π / 2) (hplat : |plat| ≤ π / 2)
    (hqlng : |qlng| ≤ π) (hplng : |plng| ≤ π)
    (hdist : z.dist_from qlat qlng R = some d) (hd : d ≤ radius) :
    inBoundingBox R radius qlat qlng plat plng := by
  have hhav : haversine R plat plng qlat qlng ≤ radius := by
    have hform : z.dist_from qlat qlng R =
        some (haversine R plat plng qlat qlng) := by
      unfold AbstractSimpleZipcode.dist_from
      rw [hzlat, hzlng]
    have heq : haversine R plat plng qlat qlng = d :=
      Option.some.inj (hform.symm.trans hdist)
    rw [heq]; exact hd
  have hlat2 : |qlat - plat| ≤ radius / R :=
    lat_bound_of_hav R radius plat plng qlat qlng hR hplat hqlat hhav
  refine ⟨by rw [latDelta, abs_sub_comm]; exact hlat2, ?_⟩
  simp only [lngWrapDist, lngDelta]
  set D := |plng - qlng| with hD
  clear_value D
  have hDnn : 0 ≤ D := by rw [hD]; exact abs_nonneg _
  have hD2pi : D ≤ 2 * π := by
    have h1 := abs_sub plng qlng
    rw [hD]; linarith
  by_cases hpole : |qlat| + radius / R < π / 2
  case neg =>
    rw [if_neg hpole]
    exact le_trans (min_le_left _ _) hD2pi
  case pos =>
    rw [if_pos hpole]
    unfold haversine at hhav
    set u := (qlng - plng) / 2 with hu
    set A := sin ((qlat - plat) / 2) ^ 2 +
      cos plat * cos qlat * sin u ^ 2 with hA
    set M := |qlat| + radius / R with hM
    clear_value u A M
    have hrR : 0 < radius / R := div_pos hrad hR
    have hM0 : 0 ≤ M := by rw [hM]; linarith [abs_nonneg qlat]
    have hMpi : M < π / 2 := hpole
    have hcosM : 0 < cos M :=
      cos_pos_of_mem_Ioo ⟨by linarith [pi_pos], hMpi⟩
    obtain ⟨hq1, hq2⟩ := abs_le.mp hqlat
    obtain ⟨hp1, hp2⟩ := abs_le.mp hplat
    have hcosq : 0 ≤ cos qlat := cos_nonneg_of_mem_Icc ⟨hq1, hq2⟩
    have hcosp : 0 ≤ cos plat := cos_nonneg_of_mem_Icc ⟨hp1, hp2⟩
    have hcosq_ge : cos M ≤ cos qlat := by
      rw [← cos_abs qlat]
      exact cos_le_cos_of_nonneg_of_le_pi (abs_nonneg _)
        (by linarith [pi_pos]) (by rw [hM]; linarith [abs_nonneg qlat])
    have hplatM : |plat| ≤ M := by
      have h1 : |plat| = |qlat + (plat - qlat)| := by ring_nf
      have h2 : |qlat + (plat - qlat)| ≤ |qlat| + |plat - qlat| := abs_add _ _
      have h3 : |plat - qlat| = |qlat - plat| := abs_sub_comm _ _
      rw [hM]; linarith
    have hcosp_ge : cos M ≤ cos plat := by
      rw [← cos_abs plat]
      exact cos_le_cos_of_nonneg_of_le_pi (abs_nonneg _)
        (by linarith [pi_pos]) hplatM
    have hA0 : 0 ≤ A := by
      rw [hA]
      exact add_nonneg (sq_nonneg _)
        (mul_nonneg (mul_nonneg hcosp hcosq) (sq_nonneg _))
    have hA1 : A ≤ 1 := by
      rw [hA]; exact hav_radicand_le_one plat qlat u hcosp hcosq
    have hsqA1 : Real.sqrt A ≤ 1 := Real.sqrt_le_one.mpr hA1
    have harc : arcsin (Real.sqrt A) ≤ radius / (2 * R) := by
      rw [le_div_iff₀ (by linarith : (0:ℝ) < 2 * R), mul_comm]
      exact hhav
    have hrad2R : radius / (2 * R) < π / 4 := by
      have h1 : radius / R < π / 2 := by
        rw [hM] at hMpi; linarith [abs_nonneg qlat]
      have h2 : radius / (2 * R) = radius / R / 2 := by ring
      linarith
    have hrad2R0 : 0 < radius / (2 * R) := div_pos hrad (by linarith)
    have hsqrt_le_sin : Real.sqrt A ≤ sin (radius / (2 * R)) := by
      have h1 : Real.sqrt A = sin (arcsin (Real.sqrt A)) :=
        (sin_arcsin (by linarith [Real.sqrt_nonneg A]) hsqA1).symm
      rw [h1]
      exact sin_le_sin_of_le_of_le_pi_div_two (neg_pi_div_two_le_arcsin _)
        (by linarith [pi_pos]) harc
    have hcosMu : cos M * |sin u| ≤ Real.sqrt A := by
      have h2 : cos M * cos M ≤ cos plat * cos qlat :=
        mul_le_mul hcosp_ge hcosq_ge hcosM.le hcosp
      have h1 : (cos M * |sin u|) ^ 2 ≤ A := by
        have h4 : (cos M * |sin u|) ^ 2 = cos M * cos M * sin u ^ 2 := by
          rw [mul_pow, sq_abs]; ring
        have h5 : cos M * cos M * sin u ^ 2 ≤
            cos plat * cos qlat * sin u ^ 2 :=
          mul_le_mul_of_nonneg_right h2 (sq_nonneg _)
        rw [h4, hA]
        have h6 := sq_nonneg (sin ((qlat - plat) / 2))
        linarith
      have h3 := Real.sqrt_le_sqrt h1
      rwa [Real.sqrt_sq (mul_nonneg hcosM.le (abs_nonneg _))] at h3
    have hsinu_le : |sin u| ≤ min 1 (sin (radius / (2 * R)) / cos M) := by
      refine le_min (abs_sin_le_one u) ?_
      rw [le_div_iff₀ hcosM, mul_comm]
      exact le_trans hcosMu hsqrt_le_sin
    have hDu : |u| = D / 2 := by
      rw [hu, abs_div, abs_two, abs_sub_comm, hD]
    have hw0 : 0 ≤ min D (2 * π - D) := le_min hDnn (by linarith)
    have hwpi : min D (2 * π - D) ≤ π := by
      rcases le_total D π with hc | hc
      · exact le_trans (min_le_left _ _) hc
      · exact le_trans (min_le_right _ _) (by linarith)
    have hsinw : sin (min D (2 * π - D) / 2) = |sin u| := by
      have habs : |sin u| = sin |u| :=
        abs_sin_eq_sin_abs u (by rw [hDu]; linarith)
      rw [habs, hDu]
      rcases le_total D π with hc | hc
      · rw [min_eq_left (by linarith)]
      · rw [min_eq_right (by linarith),
          show (2 * π - D) / 2 = π - D / 2 by ring, sin_pi_sub]
    have harcw : min D (2 * π - D) / 2 =
        arcsin (sin (min D (2 * π - D) / 2)) :=
      (arcsin_sin (by linarith) (by linarith)).symm
    calc min D (2 * π - D) = 2 * (min D (2 * π - D) / 2) := by ring
    _ = 2 * arcsin (sin (min D (2 * π - D) / 2)) := by rw [← harcw]
    _ = 2 * arcsin |sin u| := by rw [hsinw]
    _ ≤ 2 * arcsin (min 1 (sin (radius / (2 * R)) / cos M)) := by
        linarith [monotone_arcsin hsinu_le]

/-- Witness for C4: the origin query with unit radius and radius-1
sphere; the record at the query point is at distance 0 and lies in the
box. -/
theorem by_coordinates_prefilter_sound_witness :
    (0:ℝ) < 1 ∧ (mkGeoZipcode 0 0).dist_from 0 0 1 = some 0 ∧
    inBoundingBox 1 1 0 0 0 0 := by
  have hdisteq : (mkGeoZipcode 0 0).dist_from 0 0 1 = some 0 := by
    simp [AbstractSimpleZipcode.dist_from, mkGeoZipcode, haversine]
  refine ⟨one_pos, hdisteq, ?_⟩
  exact by_coordinates_prefilter_sound (mkGeoZipcode 0 0) 1 1 0 0 0 0 0
    rfl rfl one_pos one_pos
    (by rw [abs_zero]; positivity) (by rw [abs_zero]; positivity)
    (by rw [abs_zero]; positivity) (by rw [abs_zero]; positivity)
    hdisteq (by norm_num)
